import Mathlib

/-!
Verification development for the phonebook SMS booking assistant.

Shallow embedding of the availability model (src/models/availability.rs),
the scheduling validator (src/services/scheduling.rs), the booking store
queries it consumes (src/db/queries.rs), the intent-response parser
(src/services/ai/intent.rs) and the conversation state machine
(src/services/conversation.rs).

Modelling conventions:
- Naive local timestamps are total minutes since 1970-01-01 00:00 (type Int).
  The Rust code carries second precision; none of the compared properties
  distinguishes sub-minute instants, and the day-aligned range query
  [00:00:00, 23:59:59] corresponds to the minute range [dayStart, dayStart+1439].
- Time-of-day values are formatted to canonical zero-padded HH:MM strings and
  compared with the same lexicographic order Rust uses on str (byte order on
  UTF-8 equals codepoint order, which is the order implemented here on chars).
- The override map (HashMap keyed by YYYY-MM-DD strings, keys validated by
  from_json) is modelled as an association list keyed by the day number the
  key string denotes; formatting a date and looking it up is equivalent to
  looking up the day number, since formatting is injective on days.
- SQL queries are modelled as filter plus insertionSort over the table
  contents; a failing connection is an Except.error at the fetch.
- uuid generation and wall-clock reads are modelled as injected parameters
  (newId, now).
-/

deriving instance DecidableEq for Except

namespace Phonebook

/-- Total order on strings used by Rust str comparisons: lexicographic on
code points (equal to byte order on UTF-8). Implemented structurally so that
concrete comparisons evaluate in the kernel. -/
def charListLt : List Char → List Char → Bool
  | [], [] => false
  | [], _ :: _ => true
  | _ :: _, [] => false
  | a :: as, b :: bs => if a < b then true else if b < a then false else charListLt as bs

/-- Rust a lt b on strings. -/
def strLt (a b : String) : Bool := charListLt a.data b.data

/-- Rust a ge b on strings (total order). -/
def strGe (a b : String) : Bool := !charListLt a.data b.data

/-- Rust a le b on strings (total order). -/
def strLe (a b : String) : Bool := !charListLt b.data a.data

/-- Rust a gt b on strings (total order). -/
def strGt (a b : String) : Bool := charListLt b.data a.data

/-- ASCII-lowering of a string, modelling str::to_lowercase on the ASCII
day names and HH:MM strings this code compares. -/
def toLowerStr (s : String) : String := String.mk (s.data.map Char.toLower)

/-- Day number (days since 1970-01-01) of a timestamp in minutes; Int division
is Euclidean, which is floor for the positive divisor, matching chrono date(). -/
def dayOf (t : Int) : Int := t / 1440

/-- Minute of day of a timestamp, in 0..1439; matches the HH:MM rendered by
chrono format for the (possibly normalized) time. -/
def todOf (t : Int) : Nat := (t % 1440).toNat

/-- DAY_ORDER from availability.rs. -/
def DAY_ORDER : List String := ["mon", "tue", "wed", "thu", "fri", "sat", "sun"]

/-- Weekday index of a timestamp: 1970-01-01 (day 0) was a Thursday, index 3
in DAY_ORDER. -/
def weekdayIdx (t : Int) : Nat := ((dayOf t + 3) % 7).toNat

/-- Lowercased %a weekday name of a timestamp, as availability.rs computes it. -/
def weekdayName (t : Int) : String := DAY_ORDER.getD (weekdayIdx t) ""

/-- Zero-padded two-digit rendering. -/
def pad2 (n : Nat) : String := if n < 10 then "0" ++ toString n else toString n

/-- Canonical HH:MM rendering of a minute of day, as chrono %H:%M produces. -/
def formatHM (m : Nat) : String := pad2 (m / 60) ++ ":" ++ pad2 (m % 60)

/-- TimeSlot from availability.rs; the end field is renamed stop because end
is a Lean keyword. -/
structure TimeSlot where
  day : String
  start : String
  stop : String
deriving DecidableEq, Repr

/-- BreakSlot from availability.rs; end renamed stop. -/
structure BreakSlot where
  start : String
  stop : String
deriving DecidableEq, Repr

/-- DayOverride from availability.rs; end renamed stop. -/
structure DayOverride where
  available : Bool
  start : Option String
  stop : Option String
deriving DecidableEq, Repr

/-- Availability from availability.rs. Overrides are keyed by day number (see
module comment). -/
structure Availability where
  slots : List TimeSlot
  overrides : List (Int × DayOverride)
  day_from : Option String
  day_to : Option String
  time_from : Option String
  time_to : Option String
  block_size : Option Nat
  breaks : List BreakSlot
deriving DecidableEq, Repr

/-- day_index from availability.rs: position of the lowercased day in DAY_ORDER. -/
def day_index (day : String) : Option Nat :=
  DAY_ORDER.findIdx? (fun d => d == toLowerStr day)

/-- effective_slots from availability.rs: generated from the day/time range if
all four new fields are present and both day names resolve, otherwise the
legacy slots list. -/
def Availability.effective_slots (a : Availability) : List TimeSlot :=
  match a.day_from, a.day_to, a.time_from, a.time_to with
  | some dayFrom, some dayTo, some timeFrom, some timeTo =>
    match day_index dayFrom, day_index dayTo with
    | some fi, some ti =>
      let days :=
        if fi ≤ ti then (DAY_ORDER.drop fi).take (ti + 1 - fi)
        else DAY_ORDER.drop fi ++ DAY_ORDER.take (ti + 1)
      days.map (fun d => { day := d, start := timeFrom, stop := timeTo })
    | _, _ => a.slots
  | _, _, _, _ => a.slots

/-- is_during_break from availability.rs: the HH:MM string falls in some break. -/
def Availability.is_during_break (a : Availability) (time : String) : Bool :=
  a.breaks.any (fun b => strGe time b.start && strLt time b.stop)

/-- overlaps_break from availability.rs: the [start, stop) range meets some break. -/
def Availability.overlaps_break (a : Availability) (start stop : String) : Bool :=
  a.breaks.any (fun b => strLt start b.stop && strGt stop b.start)

/-- is_available from availability.rs. -/
def Availability.is_available (a : Availability) (t : Int) : Bool :=
  let weekly :=
    let weekday := weekdayName t
    let time := formatHM (todOf t)
    let slots := a.effective_slots
    let inSlot := slots.any (fun slot =>
      toLowerStr slot.day == weekday && strGe time slot.start && strLt time slot.stop)
    inSlot && !(a.is_during_break time)
  match a.overrides.lookup (dayOf t) with
  | some ovr =>
    if !ovr.available then false
    else
      match ovr.start, ovr.stop with
      | some ostart, some ostop =>
        let time := formatHM (todOf t)
        strGe time ostart && strLt time ostop && !(a.is_during_break time)
      | _, _ => weekly
  | none => weekly

/-- end_time_within_slot from availability.rs. The end instant is rendered to
HH:MM of the normalized end time, exactly as the Rust formats end_dt. -/
def Availability.end_time_within_slot (a : Availability) (t : Int) (duration_minutes : Int) : Bool :=
  let startTime := formatHM (todOf t)
  let endTime := formatHM (todOf (t + duration_minutes))
  let weekly :=
    let weekday := weekdayName t
    let slots := a.effective_slots
    let inSlot := slots.any (fun slot =>
      toLowerStr slot.day == weekday && strGe startTime slot.start && strLe endTime slot.stop)
    inSlot && !(a.overlaps_break startTime endTime)
  match a.overrides.lookup (dayOf t) with
  | some ovr =>
    if !ovr.available then false
    else
      match ovr.start, ovr.stop with
      | some ostart, some ostop =>
        strGe startTime ostart && strLe endTime ostop && !(a.overlaps_break startTime endTime)
      | _, _ => weekly
  | none => weekly

/-- capitalize from availability.rs (first char uppercased, rest lowercased;
ASCII case mapping suffices for the day names involved). -/
def capitalize (s : String) : String :=
  match s.data with
  | [] => ""
  | c :: rest => String.mk (c.toUpper :: rest.map Char.toLower)

/-- Sort key used by to_human_readable: DAY_ORDER position, 7 when unknown. -/
def daySortKey (s : TimeSlot) : Nat := (day_index s.day).getD 7

/-- to_human_readable from availability.rs. -/
def Availability.to_human_readable (a : Availability) : String :=
  let slots := a.effective_slots
  if slots.isEmpty then ""
  else
    let sorted := slots.insertionSort (fun x y => daySortKey x ≤ daySortKey y)
    String.intercalate ", "
      (sorted.map (fun s => capitalize s.day ++ ": " ++ s.start ++ "-" ++ s.stop))

/-- BookingStatus from models/booking.rs. -/
inductive BookingStatus where
  | pending
  | confirmed
  | cancelled
deriving DecidableEq, Repr

/-- Booking from models/booking.rs, timestamps in minutes. -/
structure Booking where
  id : String
  customer_phone : String
  customer_name : Option String
  date_time : Int
  duration_minutes : Int
  status : BookingStatus
  notes : Option String
  created_at : Int
  updated_at : Int
deriving DecidableEq, Repr

/-- Rows of the bookings table visible to a query: non-cancelled rows in the
inclusive date_time range, sorted by date_time ascending (queries.rs,
get_bookings_in_range; the SQL ORDER BY is modelled by insertionSort). -/
def bookings_in_range (table : List Booking) (start stop : Int) : List Booking :=
  (table.filter (fun b =>
      decide (start ≤ b.date_time) && decide (b.date_time ≤ stop)
        && !decide (b.status = .cancelled))).insertionSort
    (fun x y => x.date_time ≤ y.date_time)

/-- get_bookings_in_range from db/queries.rs; a dead connection is the error case. -/
def get_bookings_in_range (db : Except Unit (List Booking)) (start stop : Int) :
    Except Unit (List Booking) :=
  db.map (fun table => bookings_in_range table start stop)

/-- Non-cancelled bookings of one phone, date_time ascending (queries.rs,
get_bookings_for_phone). -/
def bookings_for_phone (table : List Booking) (phone : String) : List Booking :=
  (table.filter (fun b =>
      decide (b.customer_phone = phone) && !decide (b.status = .cancelled))).insertionSort
    (fun x y => x.date_time ≤ y.date_time)

/-- get_bookings_for_phone from db/queries.rs. -/
def get_bookings_for_phone (db : Except Unit (List Booking)) (phone : String) :
    Except Unit (List Booking) :=
  db.map (fun table => bookings_for_phone table phone)

/-- SchedulingError from services/scheduling.rs. -/
inductive SchedulingError where
  | outsideBusinessHours (hours : String)
  | conflict
deriving DecidableEq, Repr

/-- The Display strings of SchedulingError from services/scheduling.rs. -/
def schedulingErrorMessage : SchedulingError → String
  | .outsideBusinessHours hours =>
    "That time is outside our business hours. We\x27re available: " ++ hours
  | .conflict =>
    "Sorry, that time slot is already booked. Could you pick a different time?"

/-- validate_booking_time from services/scheduling.rs. The early returns of
the availability gate are collected in hoursCheck; a failing bookings query is
mapped to Conflict exactly as the map_err in the source does. -/
def validate_booking_time (db : Except Unit (List Booking)) (t : Int)
    (duration_minutes : Int) (availability : Option Availability) :
    Except SchedulingError Unit :=
  let hoursCheck : Option SchedulingError :=
    match availability with
    | some avail =>
      if avail.effective_slots.isEmpty then none
      else if !avail.is_available t then
        some (.outsideBusinessHours avail.to_human_readable)
      else if !avail.end_time_within_slot t duration_minutes then
        some (.outsideBusinessHours avail.to_human_readable)
      else none
    | none => none
  match hoursCheck with
  | some e => .error e
  | none =>
    let dayStart := 1440 * dayOf t
    let dayEnd := dayStart + 1439
    match get_bookings_in_range db dayStart dayEnd with
    | .error _ => .error .conflict
    | .ok bookings =>
      let proposedEnd := t + duration_minutes
      if bookings.any (fun b =>
          decide (b.date_time < proposedEnd)
            && decide (b.date_time + b.duration_minutes > t)) then
        .error .conflict
      else
        .ok ()

/-- Intent from models/intent.rs. -/
inductive Intent where
  | book
  | reschedule
  | cancel
  | confirm
  | decline
  | generalQuestion
  | unknown
deriving DecidableEq, Repr

/-- ExtractedIntent from models/intent.rs. -/
structure ExtractedIntent where
  intent : Intent
  customer_name : Option String
  requested_date : Option String
  requested_time : Option String
  duration_minutes : Option Int
  notes : Option String
  message_to_customer : String
deriving DecidableEq, Repr

/-- ConversationState from models/conversation.rs (two variants are never
entered by the transition logic but exist in the enum). -/
inductive ConversationState where
  | idle
  | collectingInfo
  | confirming
  | rescheduling
  | cancelling
deriving DecidableEq, Repr

/-- PendingBooking from models/conversation.rs. -/
structure PendingBooking where
  customer_name : Option String
  date_time : Option String
  duration_minutes : Option Int
  notes : Option String
deriving DecidableEq, Repr

/-- ConversationMessage from models/conversation.rs. -/
structure ConversationMessage where
  role : String
  content : String
deriving DecidableEq, Repr

/-- Conversation from models/conversation.rs, timestamps in minutes. -/
structure Conversation where
  phone : String
  messages : List ConversationMessage
  state : ConversationState
  pending_booking : Option PendingBooking
  last_activity : Int
  expires_at : Int
deriving DecidableEq, Repr

/-- make_datetime_string from services/conversation.rs. -/
def make_datetime_string : Option String → Option String → Option String
  | some d, some t => some (d ++ " " ++ t)
  | some d, none => some d
  | none, some t => some t
  | none, none => none

/-- Whether a year is a leap year (Gregorian). -/
def isLeap (y : Nat) : Bool := (y % 4 == 0 && y % 100 != 0) || y % 400 == 0

/-- Number of days of a month, used to validate parsed dates as chrono does. -/
def daysInMonth (y mo : Nat) : Nat :=
  if mo = 2 then (if isLeap y then 29 else 28)
  else if mo = 4 ∨ mo = 6 ∨ mo = 9 ∨ mo = 11 then 30
  else 31

/-- Days since 1970-01-01 of a civil date (standard civil-from-days inverse). -/
def daysFromCivil (y mo d : Nat) : Int :=
  let yAdj : Int := if mo ≤ 2 then (y : Int) - 1 else (y : Int)
  let era : Int := yAdj / 400
  let yoe : Int := yAdj - era * 400
  let mp : Int := ((mo : Int) + 9) % 12
  let doy : Int := (153 * mp + 2) / 5 + (d : Int) - 1
  let doe : Int := yoe * 365 + yoe / 4 - yoe / 100 + doy
  era * 146097 + doe - 719468

/-- Numeric value of two digit chars, none if either is not a digit. -/
def d2 (a b : Char) : Option Nat :=
  if a.isDigit && b.isDigit then some ((a.toNat - 48) * 10 + (b.toNat - 48)) else none

/-- Numeric value of four digit chars. -/
def d4 (a b c d : Char) : Option Nat :=
  match d2 a b, d2 c d with
  | some hi, some lo => some (hi * 100 + lo)
  | _, _ => none

/-- Timestamp of a validated calendar instant, none if out of range. -/
def mkInstant (y mo d h mi : Nat) : Option Int :=
  if 1 ≤ mo ∧ mo ≤ 12 ∧ 1 ≤ d ∧ d ≤ daysInMonth y mo ∧ h ≤ 23 ∧ mi ≤ 59 then
    some (1440 * daysFromCivil y mo d + 60 * (h : Int) + (mi : Int))
  else none

/-- Chars of a datetime in either accepted shape. Seconds are validated and
then dropped (minute granularity). -/
def parse_datetime_chars : List Char → Option Int
  | [y1, y2, y3, y4, '-', m1, m2, '-', dd1, dd2, ' ', h1, h2, ':', mi1, mi2] =>
    match d4 y1 y2 y3 y4, d2 m1 m2, d2 dd1 dd2, d2 h1 h2, d2 mi1 mi2 with
    | some y, some mo, some d, some h, some mi => mkInstant y mo d h mi
    | _, _, _, _, _ => none
  | [y1, y2, y3, y4, '-', m1, m2, '-', dd1, dd2, ' ', h1, h2, ':', mi1, mi2, ':', s1, s2] =>
    match d4 y1 y2 y3 y4, d2 m1 m2, d2 dd1 dd2, d2 h1 h2, d2 mi1 mi2, d2 s1 s2 with
    | some y, some mo, some d, some h, some mi, some s =>
      if s ≤ 59 then mkInstant y mo d h mi else none
    | _, _, _, _, _, _ => none
  | _ => none

/-- The two-format datetime parse used by conversation.rs: first the
"%Y-%m-%d %H:%M" shape, then "%Y-%m-%d %H:%M:%S" (chrono rejects trailing
input, so exactly one shape can match a given string). Modelled at the
canonical zero-padded field widths. -/
def parse_datetime (s : String) : Option Int := parse_datetime_chars s.data

/-- try_validate_time from services/conversation.rs: an unparseable datetime
string yields none (no validation error), otherwise the validator verdict is
rendered with the Display strings. -/
def try_validate_time (db : Except Unit (List Booking)) (dt_str : String)
    (duration_minutes : Int) (availability : Option Availability) : Option String :=
  match parse_datetime dt_str with
  | none => none
  | some t =>
    match validate_booking_time db t duration_minutes availability with
    | .ok () => none
    | .error e => some (schedulingErrorMessage e)

/-- create_booking_from_pending from services/conversation.rs; the uuid is the
injected newId and the wall clock is the injected now. An absent or
unparseable pending datetime falls back to now. -/
def create_booking_from_pending (phone : String) (pending : PendingBooking)
    (newId : String) (now : Int) : Booking :=
  { id := newId
    customer_phone := phone
    customer_name := pending.customer_name
    date_time :=
      match pending.date_time with
      | some ds => (parse_datetime ds).getD now
      | none => now
    duration_minutes := pending.duration_minutes.getD 60
    status := .confirmed
    notes := pending.notes
    created_at := now
    updated_at := now }

/-- Outcome of one process_message turn: the saved conversation, the reply
text, and the booking-store effects of the turn. -/
structure StepOut where
  conv : Conversation
  reply : String
  created : List Booking
  cancelled : List String
deriving DecidableEq, Repr

/-- The fixed reply used by the cancel arm when no booking exists. -/
def noBookingsReply : String :=
  "I don\x27t see any upcoming bookings to cancel. Would you like to book an appointment instead?"

/-- The fixed reply used by the confirm arm when no pending booking exists. -/
def missingPendingReply : String :=
  "I\x27m sorry, something went wrong. Could you start over?"

/-- process_message from services/conversation.rs, lines 89-386: the state
machine transition given the already-extracted intent. The storage is the
table parameter (assumed reachable: storage failures abort the turn without a
state change and are modelled at the validator level), the uuid is newId and
the wall clock is now. Every arm reproduces the source in order; the
finish_conversation early returns and the shared tail both append the
assistant reply and refresh the timestamps, which the common tail here does
for all paths. Side effects on the booking store are reported as the created
and cancelled lists. -/
def process_message (conv0 : Conversation) (message : String)
    (availability : Option Availability) (extracted : ExtractedIntent)
    (table : List Booking) (newId : String) (now : Int) : StepOut :=
  let conv1 : Conversation :=
    { conv0 with messages := conv0.messages ++ [{ role := "user", content := message }] }
  let db : Except Unit (List Booking) := .ok table
  let out : StepOut :=
    match conv1.state, extracted.intent with
    | _, .book =>
      let hasEnough := extracted.customer_name.isSome
        && extracted.requested_date.isSome && extracted.requested_time.isSome
      let pending : PendingBooking :=
        { customer_name := extracted.customer_name
          date_time := make_datetime_string extracted.requested_date extracted.requested_time
          duration_minutes := extracted.duration_minutes
          notes := extracted.notes }
      if hasEnough then
        match pending.date_time with
        | some dtStr =>
          match try_validate_time db dtStr (pending.duration_minutes.getD 60) availability with
          | some validationErr =>
            { conv := { conv1 with pending_booking := some pending, state := .collectingInfo }
              reply := validationErr, created := [], cancelled := [] }
          | none =>
            { conv := { conv1 with pending_booking := some pending, state := .confirming }
              reply := extracted.message_to_customer, created := [], cancelled := [] }
        | none =>
          { conv := { conv1 with pending_booking := some pending, state := .confirming }
            reply := extracted.message_to_customer, created := [], cancelled := [] }
      else
        { conv := { conv1 with pending_booking := some pending, state := .collectingInfo }
          reply := extracted.message_to_customer, created := [], cancelled := [] }
    | .collectingInfo, _ =>
      let pending1 : Option PendingBooking :=
        match conv1.pending_booking with
        | some p =>
          some { customer_name :=
                   if extracted.customer_name.isSome then extracted.customer_name
                   else p.customer_name
                 date_time :=
                   if extracted.requested_date.isSome || extracted.requested_time.isSome then
                     make_datetime_string (extracted.requested_date.or p.date_time)
                       extracted.requested_time
                   else p.date_time
                 duration_minutes :=
                   if extracted.duration_minutes.isSome then extracted.duration_minutes
                   else p.duration_minutes
                 notes := if extracted.notes.isSome then extracted.notes else p.notes }
        | none => none
      let hasEnough :=
        match pending1 with
        | some p => p.customer_name.isSome && p.date_time.isSome
        | none => false
      if hasEnough
          && (decide (extracted.intent = .confirm) || extracted.requested_date.isSome
                || extracted.requested_time.isSome) then
        match pending1.bind (fun p => p.date_time) with
        | some dtStr =>
          let dur := (pending1.bind (fun p => p.duration_minutes)).getD 60
          match try_validate_time db dtStr dur availability with
          | some validationErr =>
            { conv := { conv1 with pending_booking := pending1, state := .collectingInfo }
              reply := validationErr, created := [], cancelled := [] }
          | none =>
            { conv := { conv1 with pending_booking := pending1, state := .confirming }
              reply := extracted.message_to_customer, created := [], cancelled := [] }
        | none =>
          { conv := { conv1 with pending_booking := pending1, state := .confirming }
            reply := extracted.message_to_customer, created := [], cancelled := [] }
      else
        { conv := { conv1 with pending_booking := pending1 }
          reply := extracted.message_to_customer, created := [], cancelled := [] }
    | .confirming, .confirm =>
      match conv1.pending_booking with
      | some pending =>
        let check :=
          match pending.date_time with
          | some dtStr =>
            try_validate_time db dtStr (pending.duration_minutes.getD 60) availability
          | none => none
        match check with
        | some validationErr =>
          { conv := { conv1 with state := .collectingInfo }
            reply := validationErr, created := [], cancelled := [] }
        | none =>
          let booking := create_booking_from_pending conv1.phone pending newId now
          let icsLink := "/calendar/" ++ booking.id ++ ".ics"
          { conv := { conv1 with state := .idle, pending_booking := none }
            reply := extracted.message_to_customer ++ "\n\nAdd to calendar: " ++ icsLink
            created := [booking], cancelled := [] }
      | none =>
        { conv := { conv1 with state := .idle }
          reply := missingPendingReply, created := [], cancelled := [] }
    | .confirming, .decline =>
      { conv := { conv1 with state := .collectingInfo }
        reply := extracted.message_to_customer, created := [], cancelled := [] }
    | _, .cancel =>
      match (bookings_for_phone table conv1.phone).head? with
      | some nextBooking =>
        { conv := { conv1 with state := .idle, pending_booking := none }
          reply := extracted.message_to_customer, created := [], cancelled := [nextBooking.id] }
      | none =>
        { conv := { conv1 with state := .idle, pending_booking := none }
          reply := noBookingsReply, created := [], cancelled := [] }
    | _, .reschedule =>
      match (bookings_for_phone table conv1.phone).head? with
      | some nextBooking =>
        let pending1 : PendingBooking :=
          { customer_name := nextBooking.customer_name.or extracted.customer_name
            date_time := make_datetime_string extracted.requested_date extracted.requested_time
            duration_minutes := extracted.duration_minutes.or (some nextBooking.duration_minutes)
            notes := extracted.notes.or nextBooking.notes }
        let hasTime := extracted.requested_date.isSome && extracted.requested_time.isSome
        if hasTime then
          match pending1.date_time with
          | some dtStr =>
            match try_validate_time db dtStr (pending1.duration_minutes.getD 60) availability with
            | some validationErr =>
              { conv := { conv1 with pending_booking := some pending1, state := .collectingInfo }
                reply := validationErr, created := [], cancelled := [nextBooking.id] }
            | none =>
              { conv := { conv1 with pending_booking := some pending1, state := .confirming }
                reply := extracted.message_to_customer, created := [], cancelled := [nextBooking.id] }
          | none =>
            { conv := { conv1 with pending_booking := some pending1, state := .confirming }
              reply := extracted.message_to_customer, created := [], cancelled := [nextBooking.id] }
        else
          { conv := { conv1 with pending_booking := some pending1, state := .collectingInfo }
            reply := extracted.message_to_customer, created := [], cancelled := [nextBooking.id] }
      | none =>
        { conv := { conv1 with state := .idle, pending_booking := none }
          reply := extracted.message_to_customer, created := [], cancelled := [] }
    | _, .generalQuestion
    | _, .unknown =>
      { conv := conv1, reply := extracted.message_to_customer, created := [], cancelled := [] }
    | _, .confirm
    | _, .decline =>
      { conv := conv1, reply := extracted.message_to_customer, created := [], cancelled := [] }
  { out with
    conv := { out.conv with
      messages := out.conv.messages ++ [{ role := "assistant", content := out.reply }]
      last_activity := now
      expires_at := now + 30 } }

/-- Trim of ASCII whitespace at both ends, modelling str::trim on the
whitespace that occurs in LLM responses. -/
def trimChars (l : List Char) : List Char :=
  ((l.dropWhile Char.isWhitespace).reverse.dropWhile Char.isWhitespace).reverse

/-- Remainder of the list after the given pattern, none if it does not start
with the pattern (str::strip with the pattern at the front). -/
def dropPat : List Char → List Char → Option (List Char)
  | [], l => some l
  | _ :: _, [] => none
  | p :: ps, c :: cs => if p == c then dropPat ps cs else none

/-- Remainder of the list before the given trailing pattern, none if it does
not end with the pattern. -/
def dropPatEnd (pat l : List Char) : Option (List Char) :=
  (dropPat pat.reverse l.reverse).map List.reverse

/-- First index of a char (str::find). -/
def findIdxChar (c : Char) (l : List Char) : Option Nat :=
  l.findIdx? (fun x => x == c)

/-- Last index of a char (str::rfind). -/
def rfindIdxChar (c : Char) (l : List Char) : Option Nat :=
  match l.reverse.findIdx? (fun x => x == c) with
  | some i => some (l.length - 1 - i)
  | none => none

/-- parse_intent_response from services/ai/intent.rs. The serde_json
deserialization of ExtractedIntent is the external library boundary, passed
in as tryParse; the function body models the recovery cascade of the source.
The Rust slice cleaned[start..=end] panics when the first open brace sits more
than one position after the last close brace; the panic is the none result
(the Ok results of the Rust function are the some results). -/
def parse_intent_response (tryParse : String → Option ExtractedIntent)
    (response : String) : Option ExtractedIntent :=
  match tryParse response with
  | some intent => some intent
  | none =>
    let t := trimChars response.data
    let afterFence :=
      match dropPat "```json".data t with
      | some r => r
      | none =>
        match dropPat "```".data t with
        | some r => r
        | none => t
    let cleanedL := trimChars
      (match dropPatEnd "```".data afterFence with
       | some r => r
       | none => afterFence)
    let cleaned := String.mk cleanedL
    match tryParse cleaned with
    | some intent => some intent
    | none =>
      let fallback : ExtractedIntent :=
        { intent := .unknown, customer_name := none, requested_date := none
          requested_time := none, duration_minutes := none, notes := none
          message_to_customer := response }
      match findIdxChar '\x7b' cleanedL, rfindIdxChar '\x7d' cleanedL with
      | some start, some stop =>
        if stop + 1 < start then none
        else
          let jsonStr := String.mk ((cleanedL.drop start).take (stop + 1 - start))
          match tryParse jsonStr with
          | some intent => some intent
          | none => some fallback
      | _, _ => some fallback

/-- A non-cancelled booking of the candidate day whose half-open interval
overlaps the candidate window: the rejection condition of the conflict loop. -/
abbrev dayConflict (table : List Booking) (t dur : Int) : Prop :=
  ∃ b ∈ table, b.status ≠ .cancelled ∧ dayOf b.date_time = dayOf t ∧
    b.date_time < t + dur ∧ b.date_time + b.duration_minutes > t

/-- Membership in a day-range query result. -/
theorem mem_bookings_in_range {table : List Booking} {s e : Int} {b : Booking} :
    b ∈ bookings_in_range table s e ↔
      b ∈ table ∧ s ≤ b.date_time ∧ b.date_time ≤ e ∧ b.status ≠ .cancelled := by
  simp [bookings_in_range, List.mem_insertionSort, List.mem_filter, and_assoc]

/-- With no availability the validator is exactly the day conflict test. -/
theorem validate_none_eq (table : List Booking) (t dur : Int) :
    validate_booking_time (.ok table) t dur none =
      if dayConflict table t dur then .error .conflict else .ok () := by
  have hany : ((bookings_in_range table (1440 * dayOf t) (1440 * dayOf t + 1439)).any
      (fun b => decide (b.date_time < t + dur)
        && decide (b.date_time + b.duration_minutes > t)))
      = decide (dayConflict table t dur) := by
    by_cases h : dayConflict table t dur
    · rw [decide_eq_true h]
      obtain ⟨b, hb, hst, hday, h1, h2⟩ := h
      have hd : dayOf b.date_time = dayOf t := hday
      simp only [dayOf] at hd
      have : b ∈ bookings_in_range table (1440 * dayOf t) (1440 * dayOf t + 1439) :=
        mem_bookings_in_range.mpr ⟨hb, by simp only [dayOf]; omega, by simp only [dayOf]; omega, hst⟩
      exact List.any_eq_true.mpr ⟨b, this, by simp [h1, h2]⟩
    · rw [decide_eq_false h]
      rw [List.any_eq_false]
      intro b hbmem
      obtain ⟨hb, hlo, hhi, hst⟩ := mem_bookings_in_range.mp hbmem
      simp only [Bool.and_eq_true, decide_eq_true_eq, not_and]
      intro h1 h2
      exact h ⟨b, hb, hst, by simp only [dayOf] at hlo hhi ⊢; omega, h1, h2⟩
  simp only [validate_booking_time, get_bookings_in_range, Except.map, hany]
  by_cases h : dayConflict table t dur <;> simp [h]

/-- When the availability gate does not fire, the validator result is the
same as with no availability supplied. -/
theorem validate_gate_pass (db : Except Unit (List Booking)) (t dur : Int)
    (avail : Option Availability)
    (hGate : ∀ a, avail = some a → a.effective_slots.isEmpty = false →
      a.is_available t = true ∧ a.end_time_within_slot t dur = true) :
    validate_booking_time db t dur avail = validate_booking_time db t dur none := by
  cases avail with
  | none => rfl
  | some a =>
    by_cases he : a.effective_slots.isEmpty
    · simp [validate_booking_time, he]
    · obtain ⟨h1, h2⟩ := hGate a rfl (by simpa using he)
      simp [validate_booking_time, he, h1, h2]

/-- C1: with no availability, or with a candidate passing the business-hours
gate, the validator rejects with Conflict exactly when some non-cancelled
booking of the same calendar day overlaps the half-open candidate window, and
accepts with Ok otherwise; back-to-back bookings are not a conflict. -/
theorem C1_conflict_iff (table : List Booking) (t dur : Int)
    (avail : Option Availability)
    (hGate : ∀ a, avail = some a → a.effective_slots.isEmpty = false →
      a.is_available t = true ∧ a.end_time_within_slot t dur = true) :
    (validate_booking_time (.ok table) t dur avail = .error .conflict ↔
      dayConflict table t dur) ∧
    (validate_booking_time (.ok table) t dur avail = .ok () ↔
      ¬ dayConflict table t dur) := by
  rw [validate_gate_pass (.ok table) t dur avail hGate, validate_none_eq]
  by_cases h : dayConflict table t dur <;> simp [h]

/-- Booking used by concrete scheduling scenarios: 2025-06-16 (epoch day
20255, a Monday) from 10:00 to 11:00. -/
def bookingTenToEleven : Booking :=
  { id := "existing-1", customer_phone := "+15551110000", customer_name := some "Alice"
    date_time := 1440 * 20255 + 600, duration_minutes := 60, status := .confirmed
    notes := none, created_at := 0, updated_at := 0 }

/-- Witness for C1: a candidate starting 11:00 exactly when the existing
booking ends is accepted. -/
theorem C1_witness :
    validate_booking_time (.ok [bookingTenToEleven]) (1440 * 20255 + 660) 60 none = .ok () :=
  (C1_conflict_iff [bookingTenToEleven] (1440 * 20255 + 660) 60 none
    (fun _ h => nomatch h)).2.mpr (by decide)

/-- C9: a failing bookings query inside the validator is reported as the
customer-facing Conflict rejection, not as a storage failure. -/
theorem C9_db_error_is_conflict (t dur : Int) :
    validate_booking_time (.error ()) t dur none = .error .conflict := rfl

/-- C10: a wrap-around day range (from-index after to-index) expands to the
days from day_from through Sunday followed by Monday through day_to, each slot
carrying time_from and time_to. -/
theorem C10_wraparound (a : Availability) (df dt tf tt : String) (fi ti : Nat)
    (h1 : a.day_from = some df) (h2 : a.day_to = some dt)
    (h3 : a.time_from = some tf) (h4 : a.time_to = some tt)
    (h5 : day_index df = some fi) (h6 : day_index dt = some ti)
    (h7 : ti < fi) :
    a.effective_slots =
      (DAY_ORDER.drop fi ++ DAY_ORDER.take (ti + 1)).map
        (fun d => { day := d, start := tf, stop := tt }) := by
  simp only [Availability.effective_slots, h1, h2, h3, h4, h5, h6]
  rw [if_neg (by omega)]

/-- Availability with the day range fri..mon used by the C10 witness. -/
def availFriToMon : Availability :=
  { slots := [], overrides := [], day_from := some "fri", day_to := some "mon"
    time_from := some "09:00", time_to := some "17:00", block_size := none, breaks := [] }

/-- Witness for C10: fri..mon expands to exactly fri, sat, sun, mon in order. -/
theorem C10_witness :
    availFriToMon.effective_slots =
      [{ day := "fri", start := "09:00", stop := "17:00" },
       { day := "sat", start := "09:00", stop := "17:00" },
       { day := "sun", start := "09:00", stop := "17:00" },
       { day := "mon", start := "09:00", stop := "17:00" }] := by
  rw [C10_wraparound availFriToMon "fri" "mon" "09:00" "17:00" 4 0 rfl rfl rfl rfl
    (by decide) (by decide) (by decide)]
  rfl

/-- Availability with no slots, no day range, no overrides and no breaks. -/
def availAllEmpty : Availability :=
  { slots := [], overrides := [], day_from := none, day_to := none
    time_from := none, time_to := none, block_size := none, breaks := [] }

/-- C2 counterexample: on an Availability with empty effective slots, both
is_available and end_time_within_slot return false at timestamp 0, not true as
the claim states. -/
theorem C2_counterexample :
    availAllEmpty.effective_slots = [] ∧
    availAllEmpty.is_available 0 = false ∧
    availAllEmpty.end_time_within_slot 0 60 = false := by decide

/-- C2 amended: with empty effective slots the two functions return false on
any timestamp whose date has no override; the unrestricted semantics lives one
level up, in validate_booking_time, which skips the availability gate entirely
so that such an Availability validates exactly like no Availability at all. -/
theorem C2_amended (a : Availability) (t dur : Int)
    (hempty : a.effective_slots = [])
    (hovr : a.overrides.lookup (dayOf t) = none) :
    a.is_available t = false ∧
    a.end_time_within_slot t dur = false ∧
    (∀ db, validate_booking_time db t dur (some a) = validate_booking_time db t dur none) := by
  refine ⟨?_, ?_, ?_⟩
  · simp [Availability.is_available, hovr, hempty]
  · simp [Availability.end_time_within_slot, hovr, hempty]
  · intro db
    simp [validate_booking_time, hempty]

/-- Witness for C2 amended, at timestamp 5 with duration 60. -/
theorem C2_witness :
    availAllEmpty.is_available 5 = false ∧
    availAllEmpty.end_time_within_slot 5 60 = false :=
  ⟨(C2_amended availAllEmpty 5 60 rfl rfl).1, (C2_amended availAllEmpty 5 60 rfl rfl).2.1⟩

/-- Availability with the single weekly slot Mon 09:00-17:00. -/
def availMonNineToFive : Availability :=
  { slots := [{ day := "mon", start := "09:00", stop := "17:00" }], overrides := []
    day_from := none, day_to := none, time_from := none, time_to := none
    block_size := none, breaks := [] }

/-- C3 counterexample: an appointment starting Monday 16:00 with duration 600
minutes ends on Tuesday 02:00, past the closing time of its window and on the
next day, yet end_time_within_slot accepts it (only the clock time 02:00 is
compared against 17:00). -/
theorem C3_counterexample :
    availMonNineToFive.end_time_within_slot (1440 * 20255 + 960) 600 = true ∧
    dayOf (1440 * 20255 + 960 + 600) ≠ dayOf (1440 * 20255 + 960) := by decide

/-- C3 amended: end_time_within_slot sees the appointment end only through its
wall-clock time of day, so its verdict is invariant under adding a whole day
to the duration; an end wrapping past midnight is therefore not necessarily
rejected. -/
theorem C3_amended (a : Availability) (t dur : Int) :
    a.end_time_within_slot t (dur + 1440) = a.end_time_within_slot t dur := by
  have h : todOf (t + (dur + 1440)) = todOf (t + dur) := by
    simp only [todOf]
    omega
  simp only [Availability.end_time_within_slot, h]

/-- The validator with no availability ends in Ok or Conflict, never in the
business-hours rejection. -/
theorem validate_none_ok_or_conflict (db : Except Unit (List Booking)) (t dur : Int) :
    validate_booking_time db t dur none = .ok () ∨
    validate_booking_time db t dur none = .error .conflict := by
  cases db with
  | error e => right; rfl
  | ok table =>
    rw [validate_none_eq]
    by_cases h : dayConflict table t dur <;> simp [h]

/-- C5: the validator returns OutsideBusinessHours carrying the human-readable
hours exactly when an Availability with non-empty effective slots is supplied
and one of the two availability checks fails; with no Availability or empty
effective slots the gate is skipped and only the conflict check can reject. -/
theorem C5_hours_gate (db : Except Unit (List Booking)) (t dur : Int)
    (avail : Option Availability) :
    ((∃ h, validate_booking_time db t dur avail = .error (.outsideBusinessHours h)) ↔
      (∃ a, avail = some a ∧ a.effective_slots.isEmpty = false ∧
        (a.is_available t = false ∨ a.end_time_within_slot t dur = false))) ∧
    (∀ a h, avail = some a →
      validate_booking_time db t dur avail = .error (.outsideBusinessHours h) →
      h = a.to_human_readable) ∧
    (∀ a, avail = some a → a.effective_slots.isEmpty = true →
      validate_booking_time db t dur (some a) = validate_booking_time db t dur none) ∧
    (validate_booking_time db t dur none = .ok () ∨
      validate_booking_time db t dur none = .error .conflict) := by
  refine ⟨?_, ?_, ?_, validate_none_ok_or_conflict db t dur⟩
  · cases avail with
    | none =>
      constructor
      · rintro ⟨h, hh⟩
        rcases validate_none_ok_or_conflict db t dur with he | he <;> rw [he] at hh <;> cases hh
      · rintro ⟨a, ha, -⟩
        cases ha
    | some a =>
      by_cases he : a.effective_slots.isEmpty
      · have hskip : validate_booking_time db t dur (some a)
            = validate_booking_time db t dur none := by
          simp [validate_booking_time, he]
        constructor
        · rintro ⟨h, hh⟩
          rw [hskip] at hh
          rcases validate_none_ok_or_conflict db t dur with h2 | h2 <;> rw [h2] at hh <;> cases hh
        · rintro ⟨a2, ha2, hne, -⟩
          cases ha2
          rw [he] at hne
          cases hne
      · have he' : a.effective_slots.isEmpty = false := by simpa using he
        by_cases h1 : a.is_available t
        · by_cases h2 : a.end_time_within_slot t dur
          · have hpass : validate_booking_time db t dur (some a)
                = validate_booking_time db t dur none :=
              validate_gate_pass db t dur (some a)
                (fun a2 ha2 _ => by cases ha2; exact ⟨h1, h2⟩)
            constructor
            · rintro ⟨h, hh⟩
              rw [hpass] at hh
              rcases validate_none_ok_or_conflict db t dur with h3 | h3 <;>
                rw [h3] at hh <;> cases hh
            · rintro ⟨a2, ha2, -, hbad⟩
              cases ha2
              rcases hbad with hbad | hbad
              · rw [h1] at hbad; cases hbad
              · rw [h2] at hbad; cases hbad
          · have hval : validate_booking_time db t dur (some a)
                = .error (.outsideBusinessHours a.to_human_readable) := by
              have h2' : a.end_time_within_slot t dur = false := by simpa using h2
              simp [validate_booking_time, he', h1, h2']
            exact ⟨fun _ => ⟨a, rfl, he', Or.inr (by simpa using h2)⟩,
              fun _ => ⟨a.to_human_readable, hval⟩⟩
        · have hval : validate_booking_time db t dur (some a)
              = .error (.outsideBusinessHours a.to_human_readable) := by
            have h1' : a.is_available t = false := by simpa using h1
            simp [validate_booking_time, he', h1']
          exact ⟨fun _ => ⟨a, rfl, he', Or.inl (by simpa using h1)⟩,
            fun _ => ⟨a.to_human_readable, hval⟩⟩
  · intro a h ha hh
    cases ha
    by_cases he : a.effective_slots.isEmpty
    · have hskip : validate_booking_time db t dur (some a)
          = validate_booking_time db t dur none := by
        simp [validate_booking_time, he]
      rw [hskip] at hh
      rcases validate_none_ok_or_conflict db t dur with h2 | h2 <;> rw [h2] at hh <;> cases hh
    · have he' : a.effective_slots.isEmpty = false := by simpa using he
      by_cases h1 : a.is_available t
      · by_cases h2 : a.end_time_within_slot t dur
        · have hpass : validate_booking_time db t dur (some a)
              = validate_booking_time db t dur none :=
            validate_gate_pass db t dur (some a)
              (fun a2 ha2 _ => by cases ha2; exact ⟨h1, h2⟩)
          rw [hpass] at hh
          rcases validate_none_ok_or_conflict db t dur with h3 | h3 <;>
            rw [h3] at hh <;> cases hh
        · have h2' : a.end_time_within_slot t dur = false := by simpa using h2
          have hval : validate_booking_time db t dur (some a)
              = .error (.outsideBusinessHours a.to_human_readable) := by
            simp [validate_booking_time, he', h1, h2']
          rw [hval] at hh
          cases hh
          rfl
      · have h1' : a.is_available t = false := by simpa using h1
        have hval : validate_booking_time db t dur (some a)
            = .error (.outsideBusinessHours a.to_human_readable) := by
          simp [validate_booking_time, he', h1']
        rw [hval] at hh
        cases hh
        rfl
  · intro a ha he
    simp [validate_booking_time, he]

/-- Witness for C5: Tuesday 10:00 against a Monday-only availability is
rejected with the business-hours error. -/
theorem C5_witness :
    validate_booking_time (.ok []) (1440 * 20256 + 600) 60 (some availMonNineToFive)
      = .error (.outsideBusinessHours availMonNineToFive.to_human_readable) := by
  obtain ⟨h, hh⟩ :=
    (C5_hours_gate (.ok []) (1440 * 20256 + 600) 60 (some availMonNineToFive)).1.mpr
      ⟨availMonNineToFive, rfl, by decide, Or.inl (by decide)⟩
  have heq :=
    (C5_hours_gate (.ok []) (1440 * 20256 + 600) 60 (some availMonNineToFive)).2.1
      availMonNineToFive h rfl hh
  rw [heq] at hh
  exact hh

/-- C6: a pending datetime string that parses under neither accepted shape
makes try_validate_time return none for every storage state, duration and
availability (validation is silently skipped), and a booking created from that
pending falls back to the current wall clock while still being Confirmed. -/
theorem C6_unparseable_datetime (s : String) (hs : parse_datetime s = none) :
    (∀ db dur avail, try_validate_time db s dur avail = none) ∧
    (∀ phone p newId now, p.date_time = some s →
      (create_booking_from_pending phone p newId now).date_time = now ∧
      (create_booking_from_pending phone p newId now).status = .confirmed) := by
  constructor
  · intro db dur avail
    simp [try_validate_time, hs]
  · intro phone p newId now hp
    simp [create_booking_from_pending, hp, hs]

/-- Pending booking whose datetime is free text the parser rejects. -/
def pendingFreeText : PendingBooking :=
  { customer_name := some "Bob", date_time := some "tomorrow at 3"
    duration_minutes := none, notes := none }

/-- Witness for C6 with the unparseable string tomorrow at 3. -/
theorem C6_witness :
    try_validate_time (.ok []) "tomorrow at 3" 60 none = none ∧
    (create_booking_from_pending "+15550002222" pendingFreeText "b-1" 777).date_time = 777 :=
  ⟨(C6_unparseable_datetime "tomorrow at 3" (by decide)).1 (.ok []) 60 none,
   ((C6_unparseable_datetime "tomorrow at 3" (by decide)).2
     "+15550002222" pendingFreeText "b-1" 777 rfl).1⟩

/-- C4: confirming a valid pending booking creates exactly one booking, with
the injected fresh id and status Confirmed, resets the conversation to Idle
with no pending booking, cancels nothing, and replies with the LLM message
followed by the calendar link for the new id. -/
theorem C4_confirm_creates_booking (conv0 : Conversation) (message : String)
    (avail : Option Availability) (extracted : ExtractedIntent)
    (table : List Booking) (newId : String) (now : Int)
    (p : PendingBooking) (dtStr : String)
    (hstate : conv0.state = .confirming)
    (hintent : extracted.intent = .confirm)
    (hpend : conv0.pending_booking = some p)
    (hdt : p.date_time = some dtStr)
    (hvalid : try_validate_time (.ok table) dtStr (p.duration_minutes.getD 60) avail = none) :
    (process_message conv0 message avail extracted table newId now).conv.state = .idle ∧
    (process_message conv0 message avail extracted table newId now).conv.pending_booking
      = none ∧
    (process_message conv0 message avail extracted table newId now).created
      = [create_booking_from_pending conv0.phone p newId now] ∧
    (create_booking_from_pending conv0.phone p newId now).id = newId ∧
    (create_booking_from_pending conv0.phone p newId now).status = .confirmed ∧
    (process_message conv0 message avail extracted table newId now).cancelled = [] ∧
    (process_message conv0 message avail extracted table newId now).reply
      = extracted.message_to_customer ++ "\n\nAdd to calendar: /calendar/" ++ newId ++ ".ics" := by
  obtain ⟨phone, msgs, st, pb, la, ea⟩ := conv0
  obtain ⟨intent, cn, rd, rt, dm, nt, mtc⟩ := extracted
  simp only at hstate hintent hpend
  subst hstate
  subst hintent
  subst hpend
  simp only [process_message, hdt, hvalid, create_booking_from_pending]
  refine ⟨trivial, trivial, trivial, trivial, trivial, trivial, ?_⟩
  have hlit : ("\n\nAdd to calendar: " : String) ++ "/calendar/"
      = "\n\nAdd to calendar: /calendar/" := rfl
  simp only [String.append_assoc]
  rw [← String.append_assoc ("\n\nAdd to calendar: " : String) "/calendar/"
    (newId ++ ".ics"), hlit]

/-- Conversation in Confirming with a valid pending booking, for the C4
witness. -/
def convAliceConfirming : Conversation :=
  { phone := "+15550001111", messages := [], state := .confirming
    pending_booking := some { customer_name := some "Alice"
                              date_time := some "2025-06-16 10:00"
                              duration_minutes := some 60, notes := none }
    last_activity := 0, expires_at := 0 }

/-- Confirm intent carried by the C4 witness turn. -/
def intentConfirmYes : ExtractedIntent :=
  { intent := .confirm, customer_name := none, requested_date := none
    requested_time := none, duration_minutes := none, notes := none
    message_to_customer := "Confirmed, see you then!" }

/-- Witness for C4: the concrete Confirm turn persists the Confirmed booking,
resets to Idle and appends the calendar link. -/
theorem C4_witness :
    (process_message convAliceConfirming "yes" none intentConfirmYes [] "id-1" 999).conv.state
      = .idle ∧
    (process_message convAliceConfirming "yes" none intentConfirmYes [] "id-1" 999).created
      = [create_booking_from_pending "+15550001111"
          { customer_name := some "Alice", date_time := some "2025-06-16 10:00"
            duration_minutes := some 60, notes := none } "id-1" 999] ∧
    (process_message convAliceConfirming "yes" none intentConfirmYes [] "id-1" 999).reply
      = "Confirmed, see you then!\n\nAdd to calendar: /calendar/id-1.ics" := by
  have h := C4_confirm_creates_booking convAliceConfirming "yes" none intentConfirmYes
    [] "id-1" 999
    { customer_name := some "Alice", date_time := some "2025-06-16 10:00"
      duration_minutes := some 60, notes := none }
    "2025-06-16 10:00" rfl rfl rfl rfl (by decide)
  exact ⟨h.1, h.2.2.1, h.2.2.2.2.2.2⟩

/-- Membership in the per-phone query result. -/
theorem mem_bookings_for_phone {table : List Booking} {ph : String} {b : Booking} :
    b ∈ bookings_for_phone table ph ↔
      b ∈ table ∧ b.customer_phone = ph ∧ b.status ≠ .cancelled := by
  simp [bookings_for_phone, List.mem_insertionSort, List.mem_filter, and_assoc]

/-- The per-phone query result is empty exactly when every booking of the
phone in the table is cancelled. -/
theorem bookings_for_phone_eq_nil {table : List Booking} {ph : String} :
    bookings_for_phone table ph = [] ↔
      ∀ b ∈ table, b.customer_phone = ph → b.status = .cancelled := by
  rw [List.eq_nil_iff_forall_not_mem]
  constructor
  · intro h b hb hph
    by_contra hst
    exact h b (mem_bookings_for_phone.mpr ⟨hb, hph, hst⟩)
  · intro h b hbmem
    obtain ⟨hb, hph, hst⟩ := mem_bookings_for_phone.mp hbmem
    exact hst (h b hb hph)

/-- The head of the per-phone query result is a non-cancelled booking of the
phone with minimal date_time among those. -/
theorem bookings_for_phone_head_min {table : List Booking} {ph : String} {b : Booking}
    (h : (bookings_for_phone table ph).head? = some b) :
    b ∈ table ∧ b.customer_phone = ph ∧ b.status ≠ .cancelled ∧
      ∀ b2 ∈ table, b2.customer_phone = ph → b2.status ≠ .cancelled →
        b.date_time ≤ b2.date_time := by
  haveI : IsTotal Booking (fun x y : Booking => x.date_time ≤ y.date_time) :=
    ⟨fun a b => le_total a.date_time b.date_time⟩
  haveI : IsTrans Booking (fun x y : Booking => x.date_time ≤ y.date_time) :=
    ⟨fun _ _ _ hab hbc => le_trans hab hbc⟩
  have hsort : List.Sorted (fun x y : Booking => x.date_time ≤ y.date_time)
      (bookings_for_phone table ph) :=
    List.sorted_insertionSort _ _
  obtain ⟨tl, hs⟩ : ∃ tl, bookings_for_phone table ph = b :: tl := by
    cases hsl : bookings_for_phone table ph with
    | nil => rw [hsl] at h; cases h
    | cons x xs =>
      rw [hsl] at h
      cases h
      exact ⟨xs, rfl⟩
  have hbmem := mem_bookings_for_phone.mp (by rw [hs]; exact List.mem_cons_self b tl)
  refine ⟨hbmem.1, hbmem.2.1, hbmem.2.2, ?_⟩
  intro b2 hb2 hph2 hst2
  have hb2mem : b2 ∈ bookings_for_phone table ph :=
    mem_bookings_for_phone.mpr ⟨hb2, hph2, hst2⟩
  rw [hs] at hb2mem hsort
  rcases List.mem_cons.mp hb2mem with rfl | htl
  · exact le_refl _
  · exact (List.sorted_cons.mp hsort).1 b2 htl

/-- Conversation stuck in CollectingInfo used by the C7 counterexample. -/
def convCollectingNoPending : Conversation :=
  { phone := "+15551110000", messages := [], state := .collectingInfo
    pending_booking := none, last_activity := 0, expires_at := 0 }

/-- Cancel intent used by the C7 claim scenarios. -/
def intentCancelIt : ExtractedIntent :=
  { intent := .cancel, customer_name := none, requested_date := none
    requested_time := none, duration_minutes := none, notes := none
    message_to_customer := "Your booking is cancelled." }

/-- C7 counterexample: a Cancel intent arriving while the conversation is in
CollectingInfo is captured by the collecting-info arm, so the existing
non-cancelled booking is not cancelled and the state does not reset to Idle,
contradicting the for-every-prior-state claim. -/
theorem C7_counterexample :
    (process_message convCollectingNoPending "cancel it" none intentCancelIt
        [bookingTenToEleven] "n" 5).cancelled = [] ∧
    (process_message convCollectingNoPending "cancel it" none intentCancelIt
        [bookingTenToEleven] "n" 5).conv.state = .collectingInfo := by decide

/-- C7 amended: for every prior state other than CollectingInfo, a Cancel
intent resets the conversation to Idle with no pending booking and creates
nothing; with zero non-cancelled bookings for the phone it cancels nothing and
replies with the fixed no-upcoming-bookings message, and otherwise it cancels
exactly the earliest non-cancelled booking of the phone and replies with the
LLM message. -/
theorem C7_cancel (conv0 : Conversation) (message : String)
    (avail : Option Availability) (extracted : ExtractedIntent)
    (table : List Booking) (newId : String) (now : Int)
    (hstate : conv0.state ≠ .collectingInfo)
    (hintent : extracted.intent = .cancel) :
    (process_message conv0 message avail extracted table newId now).conv.state = .idle ∧
    (process_message conv0 message avail extracted table newId now).conv.pending_booking
      = none ∧
    (process_message conv0 message avail extracted table newId now).created = [] ∧
    (bookings_for_phone table conv0.phone = [] →
      (process_message conv0 message avail extracted table newId now).cancelled = [] ∧
      (process_message conv0 message avail extracted table newId now).reply
        = noBookingsReply) ∧
    (∀ b, (bookings_for_phone table conv0.phone).head? = some b →
      (process_message conv0 message avail extracted table newId now).cancelled = [b.id] ∧
      (process_message conv0 message avail extracted table newId now).reply
        = extracted.message_to_customer ∧
      b ∈ table ∧ b.customer_phone = conv0.phone ∧ b.status ≠ .cancelled ∧
      ∀ b2 ∈ table, b2.customer_phone = conv0.phone → b2.status ≠ .cancelled →
        b.date_time ≤ b2.date_time) ∧
    (bookings_for_phone table conv0.phone = [] ↔
      ∀ b ∈ table, b.customer_phone = conv0.phone → b.status = .cancelled) := by
  obtain ⟨phone, msgs, st, pb, la, ea⟩ := conv0
  obtain ⟨intent, cn, rd, rt, dm, nt, mtc⟩ := extracted
  simp only at hstate hintent
  subst hintent
  cases st
  case collectingInfo => exact absurd rfl hstate
  all_goals
    simp only [process_message]
    cases hh : (bookings_for_phone table phone).head? with
    | none =>
      refine ⟨rfl, rfl, rfl, fun _ => ⟨rfl, rfl⟩, ?_, bookings_for_phone_eq_nil⟩
      intro b hb
      exact Option.noConfusion hb
    | some b =>
      refine ⟨rfl, rfl, rfl, ?_, ?_, bookings_for_phone_eq_nil⟩
      · intro hnil
        rw [hnil] at hh
        exact Option.noConfusion hh
      · intro b2 hb2
        injection hb2 with hb2eq
        subst hb2eq
        obtain ⟨h1, h2, h3, h4⟩ := bookings_for_phone_head_min hh
        exact ⟨rfl, rfl, h1, h2, h3, h4⟩

/-- Conversation in Idle used by the C7 witness. -/
def convIdleW : Conversation :=
  { phone := "+15551110000", messages := [], state := .idle
    pending_booking := none, last_activity := 0, expires_at := 0 }

/-- Witness for C7: from Idle, a Cancel with one existing non-cancelled
booking cancels exactly that booking and replies with the LLM message. -/
theorem C7_witness :
    (process_message convIdleW "cancel it" none intentCancelIt
        [bookingTenToEleven] "n" 9).cancelled = ["existing-1"] ∧
    (process_message convIdleW "cancel it" none intentCancelIt
        [bookingTenToEleven] "n" 9).reply = "Your booking is cancelled." ∧
    (process_message convIdleW "cancel it" none intentCancelIt
        [bookingTenToEleven] "n" 9).conv.state = .idle := by
  have h := C7_cancel convIdleW "cancel it" none intentCancelIt
    [bookingTenToEleven] "n" 9 (by decide) rfl
  have h5 := h.2.2.2.2.1 bookingTenToEleven (by decide)
  exact ⟨h5.1, h5.2.1, h.1⟩

/-- C8 code-bug evaluation: on a response whose last close brace precedes its
first open brace by more than one position and which no parse attempt accepts,
parse_intent_response hits the panicking slice (the none result) instead of
returning the Unknown fallback the specification promises. -/
theorem C8_panic_on_brace_order :
    parse_intent_response (fun _ => none) "\x7d \x7b" = none := by decide

end Phonebook
